import Mathlib

/-!
Shallow embedding of the code-generation engine of JanX2/boxed-Misc:
`codegen.py` (the mirror emitter, reproducing Python surface syntax) and
`codegen_objc.py` (the heuristic Objective-C emitter).  The node model is the
subset of Python 2 `ast` nodes exercised by the verified claims; each visitor
method of the two `SourceGenerator` classes is translated one-to-one into a
state-passing Lean function.  Python's dynamic `is_method` attribute (set by
`codegen_objc.SourceGenerator.visit_Call`) is modeled as an `Option Bool` slot
carried by every expression node, and visitors return the (possibly mutated)
node alongside the updated generator state, mirroring Python's in-place
mutation of the shared tree.
-/

namespace BoxedMisc

mutual
/-- Expression nodes of the embedded `ast` subset.  Each constructor carries
the dynamic `is_method` slot (`none` = attribute not set on the Python object;
`codegen_objc.visit_Call` assigns it on the callee node).  Constructor names
follow the Python 2 `ast` class names (`ListLit` stands for `ast.List`, which
clashes with Lean's `List`). -/
inductive Expr where
  | Name (id : String) (is_method : Option Bool)
  | Num (n : Int) (is_method : Option Bool)
  | Str (s : String) (is_method : Option Bool)
  | ListLit (elts : ExprList) (is_method : Option Bool)
  | Attribute (value : Expr) (attr : String) (is_method : Option Bool)
  | Call (func : Expr) (args : ExprList) (is_method : Option Bool)
  deriving Repr, DecidableEq
/-- Ordered list of expression nodes (a `list` field of an `ast` node). -/
inductive ExprList where
  | nil
  | cons (e : Expr) (tl : ExprList)
  deriving Repr, DecidableEq
end

mutual
/-- Statement nodes of the embedded `ast` subset.  `lineno` is the source line
recorded on every Python statement node.  `Unknown` stands for a node kind for
which neither backend defines a `visit_` handler, so that `ast.NodeVisitor`
dispatches it to `generic_visit`, which visits its children (here: its child
statements) and does nothing else. -/
inductive Stmt where
  | Assign (lineno : Nat) (targets : ExprList) (value : Expr)
  | ExprStmt (lineno : Nat) (value : Expr)
  | FunctionDef (lineno : Nat) (name : String) (args : ExprList) (body : StmtList)
  | ClassDef (lineno : Nat) (name : String) (bases : ExprList) (body : StmtList)
  | Pass (lineno : Nat)
  | Module (body : StmtList)
  | Unknown (lineno : Nat) (children : StmtList)
  deriving Repr
/-- Ordered list of statement nodes (a body field of an `ast` node). -/
inductive StmtList where
  | nil
  | cons (s : Stmt) (tl : StmtList)
  deriving Repr
end

/-- Number of elements of an `ExprList` (Python `len`). -/
def ExprList.length : ExprList → Nat
  | .nil => 0
  | .cons _ tl => 1 + tl.length

/-- Plain-list view of an `ExprList`, used to state theorems. -/
def ExprList.toList : ExprList → List Expr
  | .nil => []
  | .cons e tl => e :: tl.toList

/-- Python string repetition `s * n`. -/
def strRepeat (s : String) (n : Nat) : String :=
  String.join (List.replicate n s)

/-- Split a character list at every occurrence of the separator character
(Python `str.split(sep)` with a one-character separator: keeps empty pieces,
and the empty string yields one empty piece). -/
def splitOnChar (c : Char) : List Char → List (List Char)
  | [] => [[]]
  | x :: xs =>
      match splitOnChar c xs with
      | [] => [[]]
      | h :: t => if x = c then [] :: h :: t else (x :: h) :: t

/-- Python `s.split(sep)` with a one-character separator. -/
def pySplit (s : String) (c : Char) : List String :=
  (splitOnChar c s.data).map fun l => String.mk l

/-- Occurrence test of one character list inside another (helper for Python's
`needle in hay`). -/
def containsSub (needle : List Char) : List Char → Bool
  | [] => needle.isPrefixOf []
  | x :: xs => needle.isPrefixOf (x :: xs) || containsSub needle xs

/-- Python substring containment `needle in hay`. -/
def strContains (hay needle : String) : Bool :=
  containsSub needle.data hay.data

/-- Fuel-driven worker for `replaceList`: scan left to right, replacing each
non-overlapping occurrence of the needle.  Every step consumes at least one
input character, so fuel equal to the input length always suffices. -/
def replaceListAux (needle repl : List Char) : Nat → List Char → List Char
  | 0, l => l
  | _ + 1, [] => []
  | fuel + 1, x :: xs =>
      match needle with
      | [] => x :: xs
      | n0 :: ntl =>
          if (n0 :: ntl).isPrefixOf (x :: xs) then
            repl ++ replaceListAux needle repl fuel (xs.drop ntl.length)
          else
            x :: replaceListAux needle repl fuel xs

/-- Python `s.replace(needle, repl)` (left-to-right, non-overlapping), on
character lists. -/
def replaceList (needle repl l : List Char) : List Char :=
  replaceListAux needle repl l.length l

/-- Python `s.replace(needle, repl)`. -/
def pyReplace (s needle repl : String) : String :=
  String.mk (replaceList needle.data repl.data s.data)

/-- Python whitespace test used by `str.strip()`. -/
def pySpace (c : Char) : Bool :=
  c = ' ' || c = '\t' || c = '\n' || c = '\r'

/-- Python `s.strip()`: remove leading and trailing whitespace. -/
def pyStrip (s : String) : String :=
  String.mk (((s.data.dropWhile pySpace).reverse.dropWhile pySpace).reverse)

/-- Python `s.startswith(p)`. -/
def pyStartsWith (s p : String) : Bool :=
  p.data.isPrefixOf s.data

/-- Python `s.endswith(p)`. -/
def pyEndsWith (s p : String) : Bool :=
  p.data.isSuffixOf s.data

/-- Lexicographic comparison of character lists by code point — Python 2's
`str` ordering on the ASCII identifiers handled here. -/
def charListLt : List Char → List Char → Bool
  | [], [] => false
  | [], _ :: _ => true
  | _ :: _, [] => false
  | a :: as, b :: bs => if a < b then true else if b < a then false else charListLt as bs

/-- Python string `<`. -/
def pyStrLt (a b : String) : Bool :=
  charListLt a.data b.data

/-- Helper for `capitalize_first` from `codegen_objc.py`: `s[0].capitalize() +
s[1:]` (equivalently `s.capitalize()` when `len(s) == 1`); on the ASCII method
and parameter names handled here Python's `str.capitalize` of a single
character is exactly upper-casing it. -/
def capitalize_first (s : String) : String :=
  match s.data with
  | [] => s
  | c :: rest => String.mk (c.toUpper :: rest)

/-- Python `dict.__setitem__` on an association list: overwrite the entry for
the key if present, else append it. -/
def dictSet (k v : String) : List (String × String) → List (String × String)
  | [] => [(k, v)]
  | (k', v') :: tl => if k' = k then (k, v) :: tl else (k', v') :: dictSet k v tl

/-- Python `dict.get`-style lookup on an association list. -/
def dictGet (k : String) : List (String × String) → Option String
  | [] => none
  | (k', v') :: tl => if k' = k then some v' else dictGet k tl

/-- Python `dict.__setitem__` for the `classAttributes` mapping (class name to
list of recorded attribute names). -/
def dictSetAttrs (k : String) (v : List String) :
    List (String × List String) → List (String × List String)
  | [] => [(k, v)]
  | (k', v') :: tl => if k' = k then (k, v) :: tl else (k', v') :: dictSetAttrs k v tl

/-- Python `set.add` on a duplicate-free list (insertion order kept; the only
consumer sorts before use, so order is immaterial). -/
def setAdd (a : String) (l : List String) : List String :=
  if a ∈ l then l else l ++ [a]

/-- Insert a string into an ascending list (ascending by `pyStrLt`). -/
def insertSorted (x : String) : List String → List String
  | [] => [x]
  | y :: tl => if pyStrLt x y then x :: y :: tl else y :: insertSorted x tl

/-- Python `sorted` on a list of strings (insertion sort; extensionally equal
to Python's sort since string order is total and the inputs are
duplicate-free). -/
def sortedStrings (l : List String) : List String :=
  l.foldr insertSorted []

/-- The `id_string(arg)` utility of `codegen_objc.py`: the `.id` of a name
node, a parenthesized comma-joined tuple of the element ids for a node with
`elts` (elements that are not name nodes would raise `AttributeError` in
Python and are not part of the modeled subset), and `str(arg)` otherwise
(which renders the object's memory address; modeled by an opaque placeholder,
never exercised by the claims). -/
def id_string : Expr → String
  | .Name id _ => id
  | .ListLit elts _ =>
      "(" ++ String.intercalate ", " (elts.toList.map fun e =>
        match e with
        | .Name id _ => id
        | _ => "") ++ ")"
  | _ => "<object>"

/-- Python `hasattr(node, 'func')`: among the modeled kinds only `Call` has a
`func` field. -/
def Expr.hasFunc : Expr → Bool
  | .Call _ _ _ => true
  | _ => false

/-- Python `hasattr(node, 'value')`: among the modeled kinds only `Attribute`
has a field named `value`. -/
def Expr.hasValue : Expr → Bool
  | .Attribute _ _ _ => true
  | _ => false

/-- Python `hasattr(node, 'elts')`: `ListLit` (i.e. `ast.List`) has `elts`. -/
def Expr.hasElts : Expr → Bool
  | .ListLit _ _ => true
  | _ => false

/-- Python `hasattr(node, 'n')`: only `Num` has `n`. -/
def Expr.hasN : Expr → Bool
  | .Num _ _ => true
  | _ => false

/-- Python `hasattr(node, 's')`: only `Str` has `s`. -/
def Expr.hasS : Expr → Bool
  | .Str _ _ => true
  | _ => false

/-- The dynamic `is_method` slot of a node. -/
def Expr.isMethodSlot : Expr → Option Bool
  | .Name _ im => im
  | .Num _ im => im
  | .Str _ im => im
  | .ListLit _ im => im
  | .Attribute _ _ im => im
  | .Call _ _ im => im

/-- Python `node.is_method = b`: overwrite the dynamic slot of a node. -/
def Expr.setIsMethod : Expr → Bool → Expr
  | .Name id _, b => .Name id (some b)
  | .Num n _, b => .Num n (some b)
  | .Str s _, b => .Str s (some b)
  | .ListLit elts _, b => .ListLit elts (some b)
  | .Attribute v a _, b => .Attribute v a (some b)
  | .Call f args _, b => .Call f args (some b)

/-- The `func` child of a `Call` node (Python `node.func`; only applied to
calls in the theorems). -/
def Expr.funcOf : Expr → Expr
  | .Call f _ _ => f
  | e => e

namespace CodegenObjc

/-- Mutable state of `codegen_objc.SourceGenerator`.  `resNew` is the `_new`
flag, `newLineJunk` is the `new_line` attribute that `body()` assigns (a typo
for `_new`; never read).  `currentClassAttributes` is an `Option` because
`visit_ClassDef` executes `del self.currentClassAttributes`; a Python `set` is
modeled as a duplicate-free list, a `dict` as an association list.  `printed`
collects the lines the generator sends to standard output via `print`. -/
structure GenState where
  result : List String
  resNew : Bool
  indent_with : String
  add_line_information : Bool
  indentation : Nat
  new_lines : Nat
  newLineJunk : Bool
  inClassDef : Bool
  currentClassAttributes : Option (List String)
  currentClassAttributeTypes : List (String × String)
  classAttributes : List (String × List String)
  inMethodDef : Bool
  printed : List String

/-- State built by `SourceGenerator.__init__(indent_with,
add_line_information)`. -/
def initState (indent_with : String) (add_line_information : Bool) : GenState :=
  { result := []
    resNew := true
    indent_with := indent_with
    add_line_information := add_line_information
    indentation := 0
    new_lines := 0
    newLineJunk := false
    inClassDef := false
    currentClassAttributes := some []
    currentClassAttributeTypes := []
    classAttributes := []
    inMethodDef := false
    printed := [] }

/-- `SourceGenerator.write(x)`: flush pending newlines (skipping them when
nothing has been written yet) and the current indentation, then append the
fragment and clear the fresh flag. -/
def write (x : String) (s : GenState) : GenState :=
  let s :=
    if s.new_lines ≠ 0 then
      let s :=
        if ¬ s.resNew then { s with result := s.result ++ [strRepeat "\n" s.new_lines] }
        else s
      let s := { s with result := s.result ++ [strRepeat s.indent_with s.indentation] }
      { s with new_lines := 0 }
    else s
  { s with result := s.result ++ [x], resNew := false }

/-- `SourceGenerator.newline(node, extra)`: raise the pending newline count to
`max(current, 1 + extra)`; when a node is supplied and line information is
enabled, additionally write a line-number comment and reset the count to 1. -/
def newline (lineno : Option Nat) (extra : Nat) (s : GenState) : GenState :=
  let s := { s with new_lines := max s.new_lines (1 + extra) }
  match lineno with
  | some l =>
      if s.add_line_information then
        let s := write ("# line: " ++ toString l) s
        { s with new_lines := 1 }
      else s
  | none => s

/-- The `self.currentClassAttributes.add(name)` operation.  After
`visit_ClassDef` deletes the attribute Python would raise `AttributeError`;
that path is not exercised by any modeled input and is a no-op here. -/
def addClassAttr (a : String) (s : GenState) : GenState :=
  match s.currentClassAttributes with
  | some l => { s with currentClassAttributes := some (setAdd a l) }
  | none => s

/-- The membership-recording line of `visit_Attribute`: `if
hasattr(node.value, 'id') and node.value.id == 'self':
self.currentClassAttributes.add(node.attr)` (among the modeled kinds only a
name node has an `id` field). -/
def attrSelfCheck (v : Expr) (attr : String) (s : GenState) : GenState :=
  match v with
  | .Name id _ => if id = "self" then addClassAttr attr s else s
  | _ => s

mutual

/-- Dispatch of `ast.NodeVisitor.visit` restricted to expression nodes (every
modeled expression kind has a `visit_` handler in `codegen_objc.py`), with the
node's dynamic `is_method` slot passed separately: `visitExprWithSlot e im s`
visits the node obtained from `e` by storing `im` in its slot.  This is how
Python's `node.func.is_method = ...; self.visit(node.func)` sequence is
expressed without rebuilding the node.  The bodies of `visit_Call` and
`visit_Call_class` are inlined into the `Call` arm so that the mutual
recursion stays structural; the standalone definitions `visit_Call` and
`visit_Call_class` below are proved to agree with this arm definitionally.
Returns the (possibly mutated) node together with the updated state. -/
def visitExprWithSlot : Expr → Option Bool → GenState → Expr × GenState
  | .Name id _, im, s => (.Name id im, write id s)
  | .Num n _, im, s => (.Num n im, write (toString n) s)
  | .Str str _, im, s => (.Str str im, write ("@\"" ++ pyReplace str "\n" "\\n" ++ "\"") s)
  | .ListLit elts _, im, s =>
      let s := write "[" s
      let (elts', s) := visitEnumElts elts 0 s
      (.ListLit elts' im, write "]" s)
  | .Attribute v attr _, im, s =>
      let (v', s) := visitExprWithSlot v v.isMethodSlot s
      let s := attrSelfCheck v' attr s
      let s := if im = some true then write " " s else write "." s
      let s := write attr s
      (.Attribute v' attr im, s)
  | .Call (.Attribute recv attr _) args _, im, s =>
      let s := write "[" s
      let (recv', s) := visitExprWithSlot recv recv.isMethodSlot s
      let arg_names := pySplit attr '_'
      let (args', s) :=
        match args with
        | .nil => (ExprList.nil, write (" " ++ attr) s)
        | _ => visitZipArgs arg_names args s
      let s := write "]" s
      (.Call (.Attribute recv' attr (some true)) args' im, s)
  | .Call f args _, im, s =>
      let (f', s) := visitExprWithSlot f (some false) s
      let s := write "(" s
      let (args', s) := visitCommaArgs args false s
      let s := write ")" s
      (.Call f' args' im, s)

/-- The `for name, arg in zip(arg_names, node.args)` loop of
`visit_Call_class`: write `" name:"` then visit the argument; stop at the end
of the shorter sequence, leaving the remaining arguments unvisited. -/
def visitZipArgs : List String → ExprList → GenState → ExprList × GenState
  | _, .nil, s => (.nil, s)
  | [], rest, s => (rest, s)
  | n :: ns, .cons a tl, s =>
      let s := write (" " ++ n ++ ":") s
      let (a', s) := visitExprWithSlot a a.isMethodSlot s
      let (tl', s) := visitZipArgs ns tl s
      (.cons a' tl', s)

/-- The positional-argument loop of the free-call branch of `visit_Call`
(`write_comma(); visit(arg)` per argument). -/
def visitCommaArgs : ExprList → Bool → GenState → ExprList × GenState
  | .nil, _, s => (.nil, s)
  | .cons a tl, wantComma, s =>
      let s := if wantComma then write ", " s else s
      let (a', s) := visitExprWithSlot a a.isMethodSlot s
      let (tl', s) := visitCommaArgs tl true s
      (.cons a' tl', s)

/-- The `for idx, item in enumerate(node.elts)` loop of the `sequence_visit`
handlers (`if idx: write(', ')` then visit). -/
def visitEnumElts : ExprList → Nat → GenState → ExprList × GenState
  | .nil, _, s => (.nil, s)
  | .cons e tl, idx, s =>
      let s := if idx ≠ 0 then write ", " s else s
      let (e', s) := visitExprWithSlot e e.isMethodSlot s
      let (tl', s) := visitEnumElts tl (idx + 1) s
      (.cons e' tl', s)

end

/-- Dispatch of `ast.NodeVisitor.visit` on an expression node as stored in the
tree (its own `is_method` slot). -/
def visitExpr (e : Expr) (s : GenState) : Expr × GenState :=
  visitExprWithSlot e e.isMethodSlot s

/-- `visit_Call_class`, applied to the fields of the callee `Attribute` node
(receiver `recv`, method name `attr`; its `is_method` slot has just been set
to `True` by `visit_Call`): bracketed keyword-selector emission.  The selector
parts are the raw `split('_')` of the attribute name; with at least one
positional argument, `zip` pairs parts with arguments (truncating to the
shorter); with none, the unsplit name is written after the receiver. -/
def visit_Call_class (recv : Expr) (attr : String) (args : ExprList)
    (im : Option Bool) (s : GenState) : Expr × GenState :=
  let s := write "[" s
  let (recv', s) := visitExprWithSlot recv recv.isMethodSlot s
  let arg_names := pySplit attr '_'
  let (args', s) :=
    match args with
    | .nil => (ExprList.nil, write (" " ++ attr) s)
    | _ => visitZipArgs arg_names args s
  let s := write "]" s
  (.Call (.Attribute recv' attr (some true)) args' im, s)

/-- `visit_Call`: first executes the mutation `node.func.is_method =
hasattr(node.func, 'value')`, then either delegates to `visit_Call_class`
(method-style call: the callee is an `Attribute`) or emits ordinary
parenthesized call syntax.  The modeled subset carries no keyword arguments,
`starargs` or `kwargs`, for which the remaining loops of the Python function
write nothing. -/
def visit_Call (f : Expr) (args : ExprList) (im : Option Bool) (s : GenState) :
    Expr × GenState :=
  match f with
  | .Attribute recv attr _ => visit_Call_class recv attr args im s
  | _ =>
      let (f', s) := visitExprWithSlot f (some false) s
      let s := write "(" s
      let (args', s) := visitCommaArgs args false s
      let s := write ")" s
      (.Call f' args' im, s)

/-- `visit_Pass` of `codegen_objc.py`: only requests a newline; no text is
written (there is no statement to emit on the Objective-C side).  `lineno` is
`none` for the `Pass()` node synthesized by `body()` for an empty statement
list (that fresh node has no `lineno`; with `add_line_information` set Python
would raise there, a path no modeled run takes). -/
def visit_Pass (lineno : Option Nat) (s : GenState) : GenState :=
  newline lineno 0 s

/-- The fixed rename table of `visit_FunctionDef`: `function_rename_map =
{'__init__': 'init', '__repr__': 'description'}`, applied to the declared
name when present. -/
def function_rename_map (n : String) : String :=
  if n = "__init__" then "init" else if n = "__repr__" then "description" else n

/-- The first index loop of `visit_FunctionDef` (computing `prefix_count`):
`for i in range(len(signature_items)): if len(signature_items[i]) != 0:
prefix_count = i`.  Lacking a `break`, the loop leaves `prefix_count` at the
index of the LAST nonempty entry (0 when every entry is empty). -/
def prefixCountLoop (items : List String) : Nat :=
  (List.range items.length).foldl
    (fun pc i => if (items.getD i "").length != 0 then i else pc) 0

/-- The second index loop of `visit_FunctionDef` (computing `suffix_count`):
`for i in xrange(len(signature_items)-1, -1, -1): ...` — iterating backwards
without a `break`, it leaves `suffix_count` at the index of the FIRST
nonempty entry (0 when every entry is empty). -/
def suffixCountLoop (items : List String) : Nat :=
  (List.range items.length).reverse.foldl
    (fun sc i => if (items.getD i "").length != 0 then i else sc) 0

/-- The `signature_items` computation of `visit_FunctionDef` for a method
inside a class: split the (renamed) name on `'_'`, run the two index loops,
filter out empty entries, drop a leading `"get"` when more than one entry
remains (`remove_get_method_prefix` is the constant `True` in the source),
capitalize every entry after the first when still more than one remains, then
re-attach `'_' * prefix_count` before and `'_' * suffix_count` after the
FIRST entry (`signature_items[0]` in both Python statements).  The guarded
matches on `[]` are unreachable (a positive count implies a nonempty list)
and mirror Python's `signature_items[0]` indexing. -/
def signature_items_of (node_name : String) : List String :=
  let signature_items := pySplit node_name '_'
  let pc := prefixCountLoop signature_items
  let sc := suffixCountLoop signature_items
  let signature_items := signature_items.filter fun t => t.length != 0
  let signature_items :=
    if signature_items.length > 1 then
      let signature_items :=
        if signature_items.headD "" = "get" then signature_items.tail else signature_items
      if signature_items.length > 1 then
        match signature_items with
        | [] => []
        | h :: t => h :: t.map capitalize_first
      else signature_items
    else signature_items
  let signature_items :=
    if pc > 0 then
      match signature_items with
      | [] => []
      | h :: t => (strRepeat "_" pc ++ h) :: t
    else signature_items
  if sc > 0 then
    match signature_items with
    | [] => []
    | h :: t => (h ++ strRepeat "_" sc) :: t
  else signature_items

/-- The `args_without_self` computation of `visit_FunctionDef`: drop the
first parameter when its `.id` is `"self"`.  (On an empty parameter list or a
first parameter that is not a name node Python raises; every modeled method
declares a `self` name first.) -/
def args_without_self (args : ExprList) : ExprList :=
  match args with
  | .cons (.Name "self" _) tl => tl
  | _ => args

/-- The keyword-argument loop of `visit_FunctionDef`'s multi-parameter branch:
for each parameter write `argSig:(id)argName ` where only the first written
`argSig` is capitalized (`capitalize_next`). -/
def writeArgSigs : ExprList → Bool → GenState → GenState
  | .nil, _, s => s
  | .cons arg tl, capitalize_next, s =>
      let arg_name := id_string arg
      let arg_sig := if capitalize_next then capitalize_first arg_name else arg_name
      let s := write arg_sig s
      let s := write ":(id)" s
      let s := write arg_name s
      let s := write " " s
      writeArgSigs tl false s

/-- The selector-emission block of `visit_FunctionDef` inside a class: from
after `write('- (id)')` up to before `write('{')`.  Returns the final
`node_name` (which the Python code then assigns back onto the node as
`node.name = node_name`) together with the state.  With extra parameters and
more than one total parameter, the joined `signature_items` are written
(followed by `"With"` when the joined name is `"init"`) and then the
parameter keyword pairs; with extra parameters but not more than one total
parameter nothing is written; with no extra parameters the (renamed, unsplit)
`node_name` and a space are written.  (`decompose_function_name_into_signature`
is the constant `False` in the source, so that branch is dead.) -/
def methodHeader (name : String) (args : ExprList) (s : GenState) :
    String × GenState :=
  let node_name := function_rename_map name
  let signature_items := signature_items_of node_name
  let aws := args_without_self args
  if aws.length > 0 then
    if args.length > 1 then
      let node_name := String.join signature_items
      let s := write node_name s
      let s := if node_name = "init" then write "With" s else s
      let s := writeArgSigs aws true s
      (node_name, s)
    else
      (node_name, s)
  else
    let s := write node_name s
    let s := write " " s
    (node_name, s)

/-- The member-type inference performed for one assignment target in the
class-level branch of `visit_Assign` (the `if`/`elif` chain on the fields of
the assigned value).  The numeric case records
`repr(type(node.value.n)).split("'")[1]`, which is the constant `"int"` for
the integer literals of the modeled subset.  The final `else` records no type
and prints two diagnostic lines (`'unknown member type:', node.value` and
`dir(node.value)`, whose object reprs are summarized here by fixed marker
strings). -/
def inferMemberType (target_id : String) (value : Expr) (s : GenState) : GenState :=
  if value.hasFunc then
    { s with currentClassAttributeTypes :=
        dictSet target_id (id_string value.funcOf ++ " id") s.currentClassAttributeTypes }
  else if value.hasElts then
    { s with currentClassAttributeTypes :=
        dictSet target_id "NSArray *" s.currentClassAttributeTypes }
  else if value.hasN then
    { s with currentClassAttributeTypes :=
        dictSet target_id "int" s.currentClassAttributeTypes }
  else if value.hasS then
    { s with currentClassAttributeTypes :=
        dictSet target_id "NSString *" s.currentClassAttributeTypes }
  else if (match value with
           | .Name id _ => id == "True" || id == "False"
           | _ => false) then
    { s with currentClassAttributeTypes :=
        dictSet target_id "BOOL" s.currentClassAttributeTypes }
  else
    { s with printed := s.printed ++ ["unknown member type: <node>", "<dir listing>"] }

/-- The `for target in node.targets` loop of the class-level branch of
`visit_Assign`: record each target in `currentClassAttributes` and run the
type inference for it. -/
def registerAssignTargets (targets : ExprList) (value : Expr) (s : GenState) :
    GenState :=
  match targets with
  | .nil => s
  | .cons target tl =>
      let target_id := id_string target
      let s := addClassAttr target_id s
      let s := inferMemberType target_id value s
      registerAssignTargets tl value s

/-- The `for idx, target in enumerate(node.targets)` loop of the ordinary
branch of `visit_Assign` (`if idx: write(', ')` then visit). -/
def visitEnumTargets : ExprList → Nat → GenState → ExprList × GenState
  | .nil, _, s => (.nil, s)
  | .cons t tl, idx, s =>
      let s := if idx ≠ 0 then write ", " s else s
      let (t', s) := visitExpr t s
      let (tl', s) := visitEnumTargets tl (idx + 1) s
      (.cons t' tl', s)

/-- `signature(node.args)` of `codegen_objc.py`, modeled without defaults,
`vararg` and `kwarg` (fields the modeled inputs leave empty, for which the
Python loops write nothing): write `'id '` and the parameter for each
argument, comma separated; inside a class a parameter named `self` is skipped
by `continue` without consuming the comma slot. -/
def signatureArgs : ExprList → Bool → GenState → ExprList × GenState
  | .nil, _, s => (.nil, s)
  | .cons arg tl, want_comma, s =>
      if s.inClassDef && (match arg with | .Name id _ => id == "self" | _ => false) then
        let (tl', s) := signatureArgs tl want_comma s
        (.cons arg tl', s)
      else
        let s := if want_comma then write ", " s else s
        let s := write "id " s
        let (arg', s) := visitExpr arg s
        let (tl', s) := signatureArgs tl true s
        (.cons arg' tl', s)

/-- The base-class loop of `visit_ClassDef` (`paren_or_comma()` writes
`' : '` the first time and `', '` afterwards, then the base is visited). -/
def visitBases : ExprList → Bool → GenState → ExprList × GenState
  | .nil, _, s => (.nil, s)
  | .cons b tl, have_args, s =>
      let s := if have_args then write ", " s else write " : " s
      let (b', s) := visitExpr b s
      let (tl', s) := visitBases tl true s
      (.cons b' tl', s)

mutual

/-- Dispatch of `ast.NodeVisitor.visit` on statement nodes of
`codegen_objc.py`.  `Module` and `Unknown` have no `visit_` handler and take
the `generic_visit` fallback of the stdlib base class, which visits each
child node in order and writes nothing itself.  The bodies of
`visit_Assign`, `visit_FunctionDef`, `visit_ClassDef`, `visit_Expr` and
`body` are inlined into the corresponding arms so that the mutual recursion
stays structural; the standalone definitions below are proved to agree with
these arms definitionally. -/
def visitStmt : Stmt → GenState → Stmt × GenState
  | .Assign l targets value, s =>
      if s.inClassDef && !s.inMethodDef then
        (.Assign l targets value, registerAssignTargets targets value s)
      else
        let s := newline (some l) 0 s
        let (targets', s) := visitEnumTargets targets 0 s
        let s := write " = " s
        let (value', s) := visitExpr value s
        (.Assign l targets' value', s)
  | .ExprStmt l value, s =>
      let s := newline (some l) 0 s
      let (value', s) := visitExpr value s
      (.ExprStmt l value', s)
  | .Pass l, s => (.Pass l, visit_Pass (some l) s)
  | .Module b, s =>
      let (b', s) := visitStmtList b s
      (.Module b', s)
  | .Unknown l children, s =>
      let (children', s) := visitStmtList children s
      (.Unknown l children', s)
  | .FunctionDef l name args bodyStmts, s =>
      let s := { s with inMethodDef := true }
      let s := newline none 1 s
      let s := newline (some l) 0 s
      if s.inClassDef then
        let s := write "- (id)" s
        let (node_name, s) := methodHeader name args s
        let s := write "\x7b" s
        let s := { s with newLineJunk := true, indentation := s.indentation + 1 }
        let (body', s) := visitStmtList bodyStmts s
        let s := match bodyStmts with | .nil => visit_Pass none s | _ => s
        let s := { s with indentation := s.indentation - 1 }
        let s := newline none 0 s
        let s := write "\x7d" s
        let s := { s with inMethodDef := false }
        (.FunctionDef l node_name args body', s)
      else
        let s := write ("id " ++ name ++ "(") s
        let (args', s) := signatureArgs args false s
        let s := write ") \x7b" s
        let s := { s with newLineJunk := true, indentation := s.indentation + 1 }
        let (body', s) := visitStmtList bodyStmts s
        let s := match bodyStmts with | .nil => visit_Pass none s | _ => s
        let s := { s with indentation := s.indentation - 1 }
        let s := newline none 0 s
        let s := write "\x7d" s
        let s := { s with inMethodDef := false }
        (.FunctionDef l name args' body', s)
  | .ClassDef l name bases bodyStmts, s =>
      let s := { s with inClassDef := true, currentClassAttributes := some [] }
      let s := newline none 2 s
      let s := newline (some l) 0 s
      let s := write ("@implementation " ++ name) s
      let (bases', s) := visitBases bases false s
      let (body', s) := visitStmtList bodyStmts s
      let s := newline none 0 s
      let s := write "\n@end" s
      let s := { s with inClassDef := false }
      let s :=
        { s with
          classAttributes :=
            dictSetAttrs name (s.currentClassAttributes.getD []) s.classAttributes
          currentClassAttributes := none }
      (.ClassDef l name bases' body', s)

/-- Visit each statement of a list in order (the body loops of the handlers
and the child recursion of `generic_visit`). -/
def visitStmtList : StmtList → GenState → StmtList × GenState
  | .nil, s => (.nil, s)
  | .cons st tl, s =>
      let (st', s) := visitStmt st s
      let (tl', s) := visitStmtList tl s
      (.cons st' tl', s)

end

/-- `SourceGenerator.body(statements)` of `codegen_objc.py`: set the (junk)
`new_line` attribute, indent, visit every statement, visit a synthesized
`Pass()` when the list is empty, dedent, then request a newline and write the
closing brace. -/
def body (statements : StmtList) (s : GenState) : StmtList × GenState :=
  let s := { s with newLineJunk := true, indentation := s.indentation + 1 }
  let (stmts', s) := visitStmtList statements s
  let s := match statements with | .nil => visit_Pass none s | _ => s
  let s := { s with indentation := s.indentation - 1 }
  let s := newline none 0 s
  let s := write "\x7d" s
  (stmts', s)

/-- `visit_FunctionDef` of `codegen_objc.py` (the modeled subset has no
decorators, for which `decorators(node)` writes nothing).  Sets
`inMethodDef`, requests a blank line, and inside a class writes the
`- (id)` header, the synthesized selector (see `methodHeader`), `'{'` and the
body; the returned node carries the `node.name = node_name` mutation.  For a
free function it writes `id name(signature) {` and the body. -/
def visit_FunctionDef (l : Nat) (name : String) (args : ExprList)
    (bodyStmts : StmtList) (s : GenState) : Stmt × GenState :=
  let s := { s with inMethodDef := true }
  let s := newline none 1 s
  let s := newline (some l) 0 s
  if s.inClassDef then
    let s := write "- (id)" s
    let (node_name, s) := methodHeader name args s
    let s := write "\x7b" s
    let (body', s) := body bodyStmts s
    let s := { s with inMethodDef := false }
    (.FunctionDef l node_name args body', s)
  else
    let s := write ("id " ++ name ++ "(") s
    let (args', s) := signatureArgs args false s
    let s := write ") \x7b" s
    let (body', s) := body bodyStmts s
    let s := { s with inMethodDef := false }
    (.FunctionDef l name args' body', s)

/-- `visit_ClassDef` of `codegen_objc.py` (no decorators in the modeled
subset): reset `currentClassAttributes`, write the `@implementation` header
and bases, visit the body statements directly (not via `body()`), write
`'\n@end'`, then store the collected attribute set under the class name and
delete `currentClassAttributes`. -/
def visit_ClassDef (l : Nat) (name : String) (bases : ExprList)
    (bodyStmts : StmtList) (s : GenState) : Stmt × GenState :=
  let s := { s with inClassDef := true, currentClassAttributes := some [] }
  let s := newline none 2 s
  let s := newline (some l) 0 s
  let s := write ("@implementation " ++ name) s
  let (bases', s) := visitBases bases false s
  let (body', s) := visitStmtList bodyStmts s
  let s := newline none 0 s
  let s := write "\n@end" s
  let s := { s with inClassDef := false }
  let s :=
    { s with
      classAttributes :=
        dictSetAttrs name (s.currentClassAttributes.getD []) s.classAttributes
      currentClassAttributes := none }
  (.ClassDef l name bases' body', s)

/-- `visit_Assign` of `codegen_objc.py`: at class level (inside a class but
not inside a method) only record the targets and infer their types, emitting
nothing; otherwise emit `targets = value`. -/
def visit_Assign (l : Nat) (targets : ExprList) (value : Expr) (s : GenState) :
    Stmt × GenState :=
  if s.inClassDef && !s.inMethodDef then
    (.Assign l targets value, registerAssignTargets targets value s)
  else
    let s := newline (some l) 0 s
    let (targets', s) := visitEnumTargets targets 0 s
    let s := write " = " s
    let (value', s) := visitExpr value s
    (.Assign l targets' value', s)

/-- One iteration of the cosmetic post-processing loop of `to_source`: append
`';'` to a line that is not blank, does not (stripped) start with `'@'` and
does not (stripped) end with `'}'` or `'{'`; independently, a line containing
the sentinel-comment pattern is instead rewritten from the original line by
dropping its last character and replacing the pattern with `'//'` (the second
`if` of the loop reads the unmodified `line` variable and overwrites the
semicolon result). -/
def cosmeticLine (line : String) : String :=
  let withSemi :=
    if pyStrip line != "" && !(pyStartsWith (pyStrip line) "@")
        && !(pyEndsWith (pyStrip line) "\x7d") && !(pyEndsWith (pyStrip line) "\x7b") then
      line ++ ";"
    else line
  if strContains line "__comment__ = @\"" then
    pyReplace (String.mk line.data.dropLast) "__comment__ = @\"" "//"
  else withSemi

/-- The interface-emission loop at the end of `to_source`: for one recorded
class, the `print` outputs — the `@interface` header, one line per attribute
in sorted order with the type recorded in `currentClassAttributeTypes`
(default `'id'`), the closing brace, and the `'\n@end\n\n'` trailer. -/
def interfaceLines (indent_with : String) (types : List (String × String)) :
    String × List String → List String
  | (key, attribs) =>
      ["@interface " ++ key ++ " \x7b"]
        ++ (sortedStrings attribs).map (fun v =>
            let t := (dictGet v types).getD "id"
            indent_with ++ t ++ " " ++ v ++ ";")
        ++ ["\x7d", "\n@end\n\n"]

/-- `to_source(node, indent_with, add_line_information)` of
`codegen_objc.py`.  Returns the pair of (the string the function returns, the
list of lines it prints to standard output during the call — the diagnostics
accumulated while walking followed by the synthesized `@interface` blocks;
the `print`s happen before the function returns, so a caller printing the
returned text shows the interface blocks first).  Python 2 dictionary
iteration order is unspecified; it is modeled as insertion order, which is
immaterial for single-class inputs. -/
def to_source (node : Stmt) (indent_with : String)
    (add_line_information : Bool) : String × List String :=
  let generator := initState indent_with add_line_information
  let (_, generator) := visitStmt node generator
  let lines := pySplit (String.join generator.result) '\n'
  let lines := lines.map cosmeticLine
  let printedIF :=
    (generator.classAttributes.map
      (interfaceLines indent_with generator.currentClassAttributeTypes)).flatten
  (String.intercalate "\n" lines, generator.printed ++ printedIF)

mutual

/-- Specification of the exact fragment sequence the expression visitors pass
to `write`, as a pure function of the node (and the `is_method` slot value it
is visited with).  `visitExprWithSlot_result` below proves that, starting
from a state with no pending newline, visiting appends exactly these
fragments. -/
def exprFrags : Expr → Option Bool → List String
  | .Name id _, _ => [id]
  | .Num n _, _ => [toString n]
  | .Str str _, _ => ["@\"" ++ pyReplace str "\n" "\\n" ++ "\""]
  | .ListLit elts _, _ => ["["] ++ enumEltsFrags elts 0 ++ ["]"]
  | .Attribute v attr _, im =>
      exprFrags v v.isMethodSlot ++ [if im = some true then " " else "."] ++ [attr]
  | .Call (.Attribute recv attr _) args _, _ =>
      ["["] ++ exprFrags recv recv.isMethodSlot
        ++ (match args with
            | .nil => [" " ++ attr]
            | _ => zipFrags (pySplit attr '_') args)
        ++ ["]"]
  | .Call f args _, _ =>
      exprFrags f (some false) ++ ["("] ++ commaFrags args false ++ [")"]

/-- Fragments written by `visitZipArgs`: one `" part:"` marker followed by the
argument's fragments, per `zip` pair (stopping at the shorter sequence). -/
def zipFrags : List String → ExprList → List String
  | _, .nil => []
  | [], .cons _ _ => []
  | n :: ns, .cons a tl =>
      [" " ++ n ++ ":"] ++ exprFrags a a.isMethodSlot ++ zipFrags ns tl

/-- Fragments written by `visitCommaArgs`. -/
def commaFrags : ExprList → Bool → List String
  | .nil, _ => []
  | .cons a tl, want_comma =>
      (if want_comma then [", "] else []) ++ exprFrags a a.isMethodSlot
        ++ commaFrags tl true

/-- Fragments written by `visitEnumElts`. -/
def enumEltsFrags : ExprList → Nat → List String
  | .nil, _ => []
  | .cons e tl, idx =>
      (if idx ≠ 0 then [", "] else []) ++ exprFrags e e.isMethodSlot
        ++ enumEltsFrags tl (idx + 1)

end

end CodegenObjc

/-- The declared name of a declaration statement (used to observe the
`node.name = node_name` mutation of `visit_FunctionDef`). -/
def Stmt.nameOf : Stmt → String
  | .FunctionDef _ name _ _ => name
  | .ClassDef _ name _ _ => name
  | _ => ""

/-- Example call `self.foo_bar_(x, y)` (the spec's selector-synthesis
example). -/
def exCallFooBar : Expr :=
  .Call (.Attribute (.Name "self" none) "foo_bar_" none)
    (.cons (.Name "x" none) (.cons (.Name "y" none) .nil)) none

/-- Example zero-argument call `self.foo_bar_()` with a multi-part name. -/
def exCallFooBarNoArgs : Expr :=
  .Call (.Attribute (.Name "self" none) "foo_bar_" none) .nil none

/-- Example one-argument call `self.foo(x)` with a one-part name. -/
def exCallFooOneArg : Expr :=
  .Call (.Attribute (.Name "self" none) "foo" none)
    (.cons (.Name "x" none) .nil) none

/-- Example zero-argument call `self.foo()` with a one-part name. -/
def exCallFooNoArgs : Expr :=
  .Call (.Attribute (.Name "self" none) "foo" none) .nil none

/-- Example module `class C: zebra = 1; apple = 2` (the spec's interface
determinism example). -/
def exModuleZebraApple : Stmt :=
  .Module (.cons (.ClassDef 1 "C" .nil
    (.cons (.Assign 2 (.cons (.Name "zebra" none) .nil) (.Num 1 none))
      (.cons (.Assign 3 (.cons (.Name "apple" none) .nil) (.Num 2 none)) .nil))) .nil)

/-- Example module with a class method named `foo_bar` taking one extra
parameter (`def foo_bar(self, x): pass`). -/
def exModuleFooBarMethod : Stmt :=
  .Module (.cons (.ClassDef 1 "A" .nil
    (.cons (.FunctionDef 2 "foo_bar"
      (.cons (.Name "self" none) (.cons (.Name "x" none) .nil))
      (.cons (.Pass 3) .nil)) .nil)) .nil)

/-- Example module with a class method `def get_value(self): pass` (the
spec's leading-`get` example). -/
def exModuleGetValue : Stmt :=
  .Module (.cons (.ClassDef 1 "A" .nil
    (.cons (.FunctionDef 2 "get_value"
      (.cons (.Name "self" none) .nil)
      (.cons (.Pass 3) .nil)) .nil)) .nil)

/-- Example module `a = 1` followed by a childless unhandled node followed by
`b = 2`. -/
def exModuleWithUnknown : Stmt :=
  .Module (.cons (.Assign 1 (.cons (.Name "a" none) .nil) (.Num 1 none))
    (.cons (.Unknown 2 .nil)
      (.cons (.Assign 3 (.cons (.Name "b" none) .nil) (.Num 2 none)) .nil)))

/-- `exModuleWithUnknown` without the unhandled node. -/
def exModuleWithoutUnknown : Stmt :=
  .Module (.cons (.Assign 1 (.cons (.Name "a" none) .nil) (.Num 1 none))
    (.cons (.Assign 3 (.cons (.Name "b" none) .nil) (.Num 2 none)) .nil))

/-- Example module `class C: x = 1` (a single class-level assignment). -/
def exModuleTypeOnce : Stmt :=
  .Module (.cons (.ClassDef 1 "C" .nil
    (.cons (.Assign 2 (.cons (.Name "x" none) .nil) (.Num 1 none)) .nil)) .nil)

/-- Example module `class C: x = 1; x = 's'` (a later class-level assignment
to the same attribute with a different literal shape). -/
def exModuleTypeTwice : Stmt :=
  .Module (.cons (.ClassDef 1 "C" .nil
    (.cons (.Assign 2 (.cons (.Name "x" none) .nil) (.Num 1 none))
      (.cons (.Assign 3 (.cons (.Name "x" none) .nil) (.Str "s" none)) .nil))) .nil)

namespace Codegen

/-- Mutable state of `codegen.SourceGenerator` (the mirror emitter): the
shared text-emission buffer fields only.  `resNew` is `_new`; `newLineJunk`
is the `new_line` attribute assigned by `body()` (a typo for `_new`, never
read). -/
structure GenState where
  result : List String
  resNew : Bool
  indent_with : String
  add_line_information : Bool
  indentation : Nat
  new_lines : Nat
  newLineJunk : Bool

/-- State built by `codegen.SourceGenerator.__init__`. -/
def initState (indent_with : String) (add_line_information : Bool) : GenState :=
  { result := []
    resNew := true
    indent_with := indent_with
    add_line_information := add_line_information
    indentation := 0
    new_lines := 0
    newLineJunk := false }

/-- `codegen.SourceGenerator.write(x)` — textually identical to the
Objective-C backend's `write`. -/
def write (x : String) (s : GenState) : GenState :=
  let s :=
    if s.new_lines ≠ 0 then
      let s :=
        if ¬ s.resNew then { s with result := s.result ++ [strRepeat "\n" s.new_lines] }
        else s
      let s := { s with result := s.result ++ [strRepeat s.indent_with s.indentation] }
      { s with new_lines := 0 }
    else s
  { s with result := s.result ++ [x], resNew := false }

/-- `codegen.SourceGenerator.newline(node, extra)` — textually identical to
the Objective-C backend's `newline`. -/
def newline (lineno : Option Nat) (extra : Nat) (s : GenState) : GenState :=
  let s := { s with new_lines := max s.new_lines (1 + extra) }
  match lineno with
  | some l =>
      if s.add_line_information then
        let s := write ("# line: " ++ toString l) s
        { s with new_lines := 1 }
      else s
  | none => s

/-- `visit_Pass` of `codegen.py`: request a newline and write `'pass'`.
`lineno` is `none` for the `Pass()` node synthesized by `body()` (no
`lineno` attribute; see the Objective-C `visit_Pass`). -/
def visit_Pass (lineno : Option Nat) (s : GenState) : GenState :=
  let s := newline lineno 0 s
  write "pass" s

mutual

/-- Expression dispatch of the mirror emitter.  The mirror handlers never
read or write the dynamic `is_method` slot and never mutate the tree, so
only the state is returned: `visit_Attribute` writes `'.' + attr`
unconditionally and `visit_Call` always uses parenthesized syntax (no
keyword arguments, `starargs` or `kwargs` in the modeled subset).
`visit_Str` writes `repr(node.s)`, modeled for strings without quotes or
escape characters as surrounding single quotes. -/
def visitExpr : Expr → GenState → GenState
  | .Name id _, s => write id s
  | .Num n _, s => write (toString n) s
  | .Str str _, s => write ("'" ++ str ++ "'") s
  | .ListLit elts _, s =>
      let s := write "[" s
      let s := visitEnumElts elts 0 s
      write "]" s
  | .Attribute v attr _, s =>
      let s := visitExpr v s
      write ("." ++ attr) s
  | .Call f args _, s =>
      let s := visitExpr f s
      let s := write "(" s
      let s := visitCommaArgs args false s
      write ")" s

/-- The positional-argument loop of the mirror `visit_Call`. -/
def visitCommaArgs : ExprList → Bool → GenState → GenState
  | .nil, _, s => s
  | .cons a tl, want_comma, s =>
      let s := if want_comma then write ", " s else s
      let s := visitExpr a s
      visitCommaArgs tl true s

/-- The `enumerate` loop of the mirror `sequence_visit` handlers. -/
def visitEnumElts : ExprList → Nat → GenState → GenState
  | .nil, _, s => s
  | .cons e tl, idx, s =>
      let s := if idx ≠ 0 then write ", " s else s
      let s := visitExpr e s
      visitEnumElts tl (idx + 1) s

end

/-- The `enumerate` loop over assignment targets of the mirror
`visit_Assign`. -/
def visitEnumTargets : ExprList → Nat → GenState → GenState
  | .nil, _, s => s
  | .cons t tl, idx, s =>
      let s := if idx ≠ 0 then write ", " s else s
      let s := visitExpr t s
      visitEnumTargets tl (idx + 1) s

/-- `signature(node.args)` of `codegen.py` (no defaults, `vararg` or `kwarg`
in the modeled subset): visit each parameter, comma separated. -/
def signatureArgs : ExprList → Bool → GenState → GenState
  | .nil, _, s => s
  | .cons arg tl, want_comma, s =>
      let s := if want_comma then write ", " s else s
      let s := visitExpr arg s
      signatureArgs tl true s

/-- The base-class loop of the mirror `visit_ClassDef` (`paren_or_comma()`
writes `'('` the first time and `', '` afterwards). -/
def visitBases : ExprList → Bool → GenState → GenState
  | .nil, _, s => s
  | .cons b tl, have_args, s =>
      let s := if have_args then write ", " s else write "(" s
      let s := visitExpr b s
      visitBases tl true s

mutual

/-- Statement dispatch of the mirror emitter (`codegen.py`).  `Module` and
`Unknown` take the stdlib `generic_visit` fallback.  The `body` logic
(without a closing brace: the mirror syntax needs none) is inlined into the
`FunctionDef` and `ClassDef` arms; the standalone `body` definition below
agrees with the inlined code definitionally. -/
def visitStmt : Stmt → GenState → GenState
  | .Assign l targets value, s =>
      let s := newline (some l) 0 s
      let s := visitEnumTargets targets 0 s
      let s := write " = " s
      visitExpr value s
  | .ExprStmt l value, s =>
      let s := newline (some l) 0 s
      visitExpr value s
  | .Pass l, s => visit_Pass (some l) s
  | .Module b, s => visitStmtList b s
  | .Unknown _ children, s => visitStmtList children s
  | .FunctionDef l name args bodyStmts, s =>
      let s := newline none 1 s
      let s := newline (some l) 0 s
      let s := write ("def " ++ name ++ "(") s
      let s := signatureArgs args false s
      let s := write "):" s
      let s := { s with newLineJunk := true, indentation := s.indentation + 1 }
      let s := visitStmtList bodyStmts s
      let s := match bodyStmts with | .nil => visit_Pass none s | _ => s
      { s with indentation := s.indentation - 1 }
  | .ClassDef l name bases bodyStmts, s =>
      let s := newline none 2 s
      let s := newline (some l) 0 s
      let s := write ("class " ++ name) s
      let s := visitBases bases false s
      let s := write (match bases with | .nil => ":" | _ => "):") s
      let s := { s with newLineJunk := true, indentation := s.indentation + 1 }
      let s := visitStmtList bodyStmts s
      let s := match bodyStmts with | .nil => visit_Pass none s | _ => s
      { s with indentation := s.indentation - 1 }

/-- Visit each statement of a list in order. -/
def visitStmtList : StmtList → GenState → GenState
  | .nil, s => s
  | .cons st tl, s =>
      let s := visitStmt st s
      visitStmtList tl s

end

/-- `SourceGenerator.body(statements)` of `codegen.py`: set the (junk)
`new_line` attribute, indent, visit every statement, visit a synthesized
`Pass()` when the list is empty, dedent.  No closing token is written. -/
def body (statements : StmtList) (s : GenState) : GenState :=
  let s := { s with newLineJunk := true, indentation := s.indentation + 1 }
  let s := visitStmtList statements s
  let s := match statements with | .nil => visit_Pass none s | _ => s
  { s with indentation := s.indentation - 1 }

/-- `to_source` of `codegen.py`: walk the tree and join the buffered
fragments; no post-processing and no printing. -/
def to_source (node : Stmt) (indent_with : String)
    (add_line_information : Bool) : String :=
  let generator := initState indent_with add_line_information
  let generator := visitStmt node generator
  String.join generator.result

end Codegen

end BoxedMisc

namespace BoxedMisc

namespace CodegenObjc

theorem write_result (x : String) (s : GenState) (h : s.new_lines = 0) :
    (write x s).result = s.result ++ [x] ∧ (write x s).new_lines = 0 := by
  simp [write, h]

theorem addClassAttr_buffer (a : String) (s : GenState) :
    (addClassAttr a s).result = s.result ∧ (addClassAttr a s).new_lines = s.new_lines := by
  cases h : s.currentClassAttributes <;> simp [addClassAttr, h]

theorem attrSelfCheck_buffer (v : Expr) (a : String) (s : GenState) :
    (attrSelfCheck v a s).result = s.result
      ∧ (attrSelfCheck v a s).new_lines = s.new_lines := by
  cases v <;> simp [attrSelfCheck]
  case Name id im => split <;> simp [addClassAttr_buffer]

mutual

theorem visitExprWithSlot_result (e : Expr) (im : Option Bool) (s : GenState)
    (h : s.new_lines = 0) :
    (visitExprWithSlot e im s).2.result = s.result ++ exprFrags e im
      ∧ (visitExprWithSlot e im s).2.new_lines = 0 := by
  cases e with
  | Name id im0 =>
      simpa [visitExprWithSlot, exprFrags] using write_result id s h
  | Num n im0 =>
      simpa [visitExprWithSlot, exprFrags] using write_result (toString n) s h
  | Str str im0 =>
      simpa [visitExprWithSlot, exprFrags] using
        write_result ("@\"" ++ pyReplace str "\n" "\\n" ++ "\"") s h
  | ListLit elts im0 =>
      obtain ⟨h1, h2⟩ := write_result "[" s h
      obtain ⟨h3, h4⟩ := visitEnumElts_result elts 0 (write "[" s) h2
      rcases hv : visitEnumElts elts 0 (write "[" s) with ⟨elts', s2⟩
      rw [hv] at h3 h4
      dsimp only at h3 h4
      obtain ⟨h5, h6⟩ := write_result "]" s2 h4
      simp [visitExprWithSlot, exprFrags, hv, h5, h3, h1, h6]
  | Attribute v attr im0 =>
      obtain ⟨h1, h2⟩ := visitExprWithSlot_result v v.isMethodSlot s h
      rcases hv : visitExprWithSlot v v.isMethodSlot s with ⟨v', s1⟩
      rw [hv] at h1 h2
      dsimp only at h1 h2
      obtain ⟨h3, h4⟩ := attrSelfCheck_buffer v' attr s1
      have h4' : (attrSelfCheck v' attr s1).new_lines = 0 := by rw [h4, h2]
      by_cases him : im = some true
      · obtain ⟨h5, h6⟩ := write_result " " (attrSelfCheck v' attr s1) h4'
        obtain ⟨h7, h8⟩ := write_result attr _ h6
        simp [visitExprWithSlot, exprFrags, hv, him, h7, h5, h3, h1, h8]
      · obtain ⟨h5, h6⟩ := write_result "." (attrSelfCheck v' attr s1) h4'
        obtain ⟨h7, h8⟩ := write_result attr _ h6
        simp [visitExprWithSlot, exprFrags, hv, him, h7, h5, h3, h1, h8]
  | Call f args im0 =>
      cases f with
      | Attribute recv attr fim =>
          obtain ⟨h1, h2⟩ := write_result "[" s h
          obtain ⟨h3, h4⟩ := visitExprWithSlot_result recv recv.isMethodSlot (write "[" s) h2
          rcases hv : visitExprWithSlot recv recv.isMethodSlot (write "[" s) with ⟨recv', s2⟩
          rw [hv] at h3 h4
          dsimp only at h3 h4
          cases args with
          | nil =>
              obtain ⟨h5, h6⟩ := write_result (" " ++ attr) s2 h4
              obtain ⟨h7, h8⟩ := write_result "]" _ h6
              simp [visitExprWithSlot, exprFrags, hv, h7, h5, h3, h1, h8]
          | cons a tl =>
              obtain ⟨h5, h6⟩ := visitZipArgs_result (pySplit attr '_') (.cons a tl) s2 h4
              rcases hz : visitZipArgs (pySplit attr '_') (.cons a tl) s2 with ⟨args', s3⟩
              rw [hz] at h5 h6
              dsimp only at h5 h6
              obtain ⟨h7, h8⟩ := write_result "]" s3 h6
              simp [visitExprWithSlot, exprFrags, hv, hz, h7, h5, h3, h1, h8]
      | Name id fim =>
          obtain ⟨h1, h2⟩ := write_result id s h
          obtain ⟨h3, h4⟩ := write_result "(" (write id s) h2
          obtain ⟨h5, h6⟩ := visitCommaArgs_result args false (write "(" (write id s)) h4
          rcases hc : visitCommaArgs args false (write "(" (write id s)) with ⟨args', s3⟩
          rw [hc] at h5 h6
          dsimp only at h5 h6
          obtain ⟨h7, h8⟩ := write_result ")" s3 h6
          simp [visitExprWithSlot, exprFrags, hc, h7, h5, h3, h1, h8]
      | Num n fim =>
          obtain ⟨h1, h2⟩ := write_result (toString n) s h
          obtain ⟨h3, h4⟩ := write_result "(" (write (toString n) s) h2
          obtain ⟨h5, h6⟩ := visitCommaArgs_result args false (write "(" (write (toString n) s)) h4
          rcases hc : visitCommaArgs args false (write "(" (write (toString n) s)) with ⟨args', s3⟩
          rw [hc] at h5 h6
          dsimp only at h5 h6
          obtain ⟨h7, h8⟩ := write_result ")" s3 h6
          simp [visitExprWithSlot, exprFrags, hc, h7, h5, h3, h1, h8]
      | Str str fim =>
          obtain ⟨h1, h2⟩ := write_result ("@\"" ++ pyReplace str "\n" "\\n" ++ "\"") s h
          obtain ⟨h3, h4⟩ :=
            write_result "(" (write ("@\"" ++ pyReplace str "\n" "\\n" ++ "\"") s) h2
          obtain ⟨h5, h6⟩ := visitCommaArgs_result args false
            (write "(" (write ("@\"" ++ pyReplace str "\n" "\\n" ++ "\"") s)) h4
          rcases hc : visitCommaArgs args false
              (write "(" (write ("@\"" ++ pyReplace str "\n" "\\n" ++ "\"") s)) with ⟨args', s3⟩
          rw [hc] at h5 h6
          dsimp only at h5 h6
          obtain ⟨h7, h8⟩ := write_result ")" s3 h6
          simp [visitExprWithSlot, exprFrags, hc, h7, h5, h3, h1, h8]
      | ListLit elts fim =>
          obtain ⟨h1, h2⟩ := write_result "[" s h
          obtain ⟨h3, h4⟩ := visitEnumElts_result elts 0 (write "[" s) h2
          rcases he : visitEnumElts elts 0 (write "[" s) with ⟨elts', s2⟩
          rw [he] at h3 h4
          dsimp only at h3 h4
          obtain ⟨h5, h6⟩ := write_result "]" s2 h4
          obtain ⟨h7, h8⟩ := write_result "(" (write "]" s2) h6
          obtain ⟨h9, h10⟩ := visitCommaArgs_result args false (write "(" (write "]" s2)) h8
          rcases hc : visitCommaArgs args false (write "(" (write "]" s2)) with ⟨args', s3⟩
          rw [hc] at h9 h10
          dsimp only at h9 h10
          obtain ⟨h11, h12⟩ := write_result ")" s3 h10
          simp [visitExprWithSlot, exprFrags, he, hc, h11, h9, h7, h5, h3, h1, h12]
      | Call f2 args2 fim =>
          obtain ⟨h1, h2⟩ := visitExprWithSlot_result (.Call f2 args2 fim) (some false) s h
          rcases hv : visitExprWithSlot (.Call f2 args2 fim) (some false) s with ⟨f', s1⟩
          rw [hv] at h1 h2
          dsimp only at h1 h2
          obtain ⟨h3, h4⟩ := write_result "(" s1 h2
          obtain ⟨h5, h6⟩ := visitCommaArgs_result args false (write "(" s1) h4
          rcases hc : visitCommaArgs args false (write "(" s1) with ⟨args', s3⟩
          rw [hc] at h5 h6
          dsimp only at h5 h6
          obtain ⟨h7, h8⟩ := write_result ")" s3 h6
          simp [visitExprWithSlot, exprFrags, hv, hc, h7, h5, h3, h1, h8]

theorem visitZipArgs_result (ns : List String) (args : ExprList) (s : GenState)
    (h : s.new_lines = 0) :
    (visitZipArgs ns args s).2.result = s.result ++ zipFrags ns args
      ∧ (visitZipArgs ns args s).2.new_lines = 0 := by
  cases args with
  | nil => cases ns <;> simpa [visitZipArgs, zipFrags] using h
  | cons a tl =>
      cases ns with
      | nil => simpa [visitZipArgs, zipFrags] using h
      | cons n ns' =>
          obtain ⟨h1, h2⟩ := write_result (" " ++ n ++ ":") s h
          obtain ⟨h3, h4⟩ := visitExprWithSlot_result a a.isMethodSlot (write (" " ++ n ++ ":") s) h2
          rcases hv : visitExprWithSlot a a.isMethodSlot (write (" " ++ n ++ ":") s) with ⟨a', s2⟩
          rw [hv] at h3 h4
          dsimp only at h3 h4
          obtain ⟨h5, h6⟩ := visitZipArgs_result ns' tl s2 h4
          rcases hz : visitZipArgs ns' tl s2 with ⟨tl', s3⟩
          rw [hz] at h5 h6
          dsimp only at h5 h6
          simp [visitZipArgs, zipFrags, hv, hz, h5, h3, h1, h6]

theorem visitCommaArgs_result (args : ExprList) (wc : Bool) (s : GenState)
    (h : s.new_lines = 0) :
    (visitCommaArgs args wc s).2.result = s.result ++ commaFrags args wc
      ∧ (visitCommaArgs args wc s).2.new_lines = 0 := by
  cases args with
  | nil => simpa [visitCommaArgs, commaFrags] using h
  | cons a tl =>
      cases wc with
      | false =>
          obtain ⟨h3, h4⟩ := visitExprWithSlot_result a a.isMethodSlot s h
          rcases hv : visitExprWithSlot a a.isMethodSlot s with ⟨a', s2⟩
          rw [hv] at h3 h4
          dsimp only at h3 h4
          obtain ⟨h5, h6⟩ := visitCommaArgs_result tl true s2 h4
          rcases hc : visitCommaArgs tl true s2 with ⟨tl', s3⟩
          rw [hc] at h5 h6
          dsimp only at h5 h6
          simp [visitCommaArgs, commaFrags, hv, hc, h5, h3, h6]
      | true =>
          obtain ⟨h1, h2⟩ := write_result ", " s h
          obtain ⟨h3, h4⟩ := visitExprWithSlot_result a a.isMethodSlot (write ", " s) h2
          rcases hv : visitExprWithSlot a a.isMethodSlot (write ", " s) with ⟨a', s2⟩
          rw [hv] at h3 h4
          dsimp only at h3 h4
          obtain ⟨h5, h6⟩ := visitCommaArgs_result tl true s2 h4
          rcases hc : visitCommaArgs tl true s2 with ⟨tl', s3⟩
          rw [hc] at h5 h6
          dsimp only at h5 h6
          simp [visitCommaArgs, commaFrags, hv, hc, h5, h3, h1, h6]

theorem visitEnumElts_result (elts : ExprList) (idx : Nat) (s : GenState)
    (h : s.new_lines = 0) :
    (visitEnumElts elts idx s).2.result = s.result ++ enumEltsFrags elts idx
      ∧ (visitEnumElts elts idx s).2.new_lines = 0 := by
  cases elts with
  | nil => simpa [visitEnumElts, enumEltsFrags] using h
  | cons e tl =>
      by_cases hidx : idx = 0
      · subst hidx
        obtain ⟨h3, h4⟩ := visitExprWithSlot_result e e.isMethodSlot s h
        rcases hv : visitExprWithSlot e e.isMethodSlot s with ⟨e', s2⟩
        rw [hv] at h3 h4
        dsimp only at h3 h4
        obtain ⟨h5, h6⟩ := visitEnumElts_result tl 1 s2 h4
        rcases hc : visitEnumElts tl 1 s2 with ⟨tl', s3⟩
        rw [hc] at h5 h6
        dsimp only at h5 h6
        simp [visitEnumElts, enumEltsFrags, hv, hc, h5, h3, h6]
      · obtain ⟨h1, h2⟩ := write_result ", " s h
        obtain ⟨h3, h4⟩ := visitExprWithSlot_result e e.isMethodSlot (write ", " s) h2
        rcases hv : visitExprWithSlot e e.isMethodSlot (write ", " s) with ⟨e', s2⟩
        rw [hv] at h3 h4
        dsimp only at h3 h4
        obtain ⟨h5, h6⟩ := visitEnumElts_result tl (idx + 1) s2 h4
        rcases hc : visitEnumElts tl (idx + 1) s2 with ⟨tl', s3⟩
        rw [hc] at h5 h6
        dsimp only at h5 h6
        simp [visitEnumElts, enumEltsFrags, hv, hc, h5, h3, h1, h6, hidx]

end

end CodegenObjc

end BoxedMisc

namespace BoxedMisc

theorem dictGet_dictSet (k v : String) (d : List (String × String)) :
    dictGet k (dictSet k v d) = some v := by
  induction d with
  | nil => simp [dictSet, dictGet]
  | cons hd tl ih =>
      obtain ⟨k', v'⟩ := hd
      by_cases hk : k' = k <;> simp [dictSet, dictGet, hk, ih]

namespace CodegenObjc

theorem visitExprWithSlot_slot (e : Expr) (im : Option Bool) (s : GenState) :
    (visitExprWithSlot e im s).1.isMethodSlot = im := by
  cases e with
  | Name id im0 => simp [visitExprWithSlot, Expr.isMethodSlot]
  | Num n im0 => simp [visitExprWithSlot, Expr.isMethodSlot]
  | Str str im0 => simp [visitExprWithSlot, Expr.isMethodSlot]
  | ListLit elts im0 =>
      rcases hv : visitEnumElts elts 0 (write "[" s) with ⟨elts', s2⟩
      simp [visitExprWithSlot, hv, Expr.isMethodSlot]
  | Attribute v attr im0 =>
      rcases hv : visitExprWithSlot v v.isMethodSlot s with ⟨v', s1⟩
      simp [visitExprWithSlot, hv, Expr.isMethodSlot]
  | Call f args im0 =>
      cases f with
      | Attribute recv attr fim =>
          rcases hv : visitExprWithSlot recv recv.isMethodSlot (write "[" s) with ⟨recv', s2⟩
          cases args with
          | nil => simp [visitExprWithSlot, hv, Expr.isMethodSlot]
          | cons a tl =>
              rcases hz : visitZipArgs (pySplit attr '_') (.cons a tl) s2 with ⟨args', s3⟩
              simp [visitExprWithSlot, hv, hz, Expr.isMethodSlot]
      | Name id fim =>
          rcases hc : visitCommaArgs args false (write "(" (write id s)) with ⟨args', s3⟩
          simp [visitExprWithSlot, hc, Expr.isMethodSlot]
      | Num n fim =>
          rcases hc : visitCommaArgs args false (write "(" (write (toString n) s)) with ⟨args', s3⟩
          simp [visitExprWithSlot, hc, Expr.isMethodSlot]
      | Str str fim =>
          rcases hc : visitCommaArgs args false
              (write "(" (write ("@\"" ++ pyReplace str "\n" "\\n" ++ "\"") s)) with ⟨args', s3⟩
          simp [visitExprWithSlot, hc, Expr.isMethodSlot]
      | ListLit elts fim =>
          rcases he : visitEnumElts elts 0 (write "[" s) with ⟨elts', s2⟩
          rcases hc : visitCommaArgs args false (write "(" (write "]" s2)) with ⟨args', s3⟩
          simp [visitExprWithSlot, he, hc, Expr.isMethodSlot]
      | Call f2 args2 fim =>
          rcases hv : visitExprWithSlot (.Call f2 args2 fim) (some false) s with ⟨f', s1⟩
          rcases hc : visitCommaArgs args false (write "(" s1) with ⟨args', s3⟩
          simp [visitExprWithSlot, hv, hc, Expr.isMethodSlot]

end CodegenObjc

end BoxedMisc

namespace BoxedMisc

/-- C1: (amended) for every method-style call — a call whose callee is an
attribute access — carrying at least one positional argument, the heuristic
emitter, started with no pending newline, writes exactly `'['`, the
receiver's fragments, one `" part:"` marker followed by the argument's
fragments per `zip` pair of the raw `split('_')` parts of the name with the
positional arguments (truncating at the shorter sequence), and `']'`.  The
claim as stated also covered zero-argument calls, where the emitter instead
writes the unsplit method name after the receiver (see the
counterexample). -/
theorem C1_method_call_zip_pairs (recv : Expr) (attr : String) (args : ExprList)
    (aim cim : Option Bool) (s : CodegenObjc.GenState)
    (hargs : args ≠ ExprList.nil) (hnl : s.new_lines = 0) :
    (CodegenObjc.visitExpr (.Call (.Attribute recv attr aim) args cim) s).2.result
      = s.result ++ ["["] ++ CodegenObjc.exprFrags recv recv.isMethodSlot
        ++ CodegenObjc.zipFrags (pySplit attr '_') args ++ ["]"] := by
  cases args with
  | nil => exact absurd rfl hargs
  | cons a tl =>
      have h1 := (CodegenObjc.visitExprWithSlot_result
        (.Call (.Attribute recv attr aim) (.cons a tl) cim) cim s hnl).1
      simpa [CodegenObjc.visitExpr, Expr.isMethodSlot, CodegenObjc.exprFrags] using h1

/-- C1 witness: `self.foo_bar_(x, y)` is emitted as `[self foo:x bar:y]`. -/
theorem C1_method_call_zip_pairs_witness :
    (CodegenObjc.visitExpr exCallFooBar (CodegenObjc.initState "    " false)).2.result
        = ["[", "self", " foo:", "x", " bar:", "y", "]"]
      ∧ String.join (CodegenObjc.visitExpr exCallFooBar
          (CodegenObjc.initState "    " false)).2.result = "[self foo:x bar:y]" := by
  constructor
  · have h := C1_method_call_zip_pairs (.Name "self" none) "foo_bar_"
      (.cons (.Name "x" none) (.cons (.Name "y" none) .nil)) none none
      (CodegenObjc.initState "    " false) (by decide) (by decide)
    exact h.trans (by decide)
  · decide

/-- C1 counterexample: the zero-argument method-style call `self.foo_bar_()`
(name splits into keyword parts `foo` and `bar`) is emitted as
`[self foo_bar_]` — the unsplit name after the receiver — not as the
receiver followed by the pairs truncated to the (empty) argument sequence,
which per the claim's rule would be `[self]`. -/
theorem C1_zero_arg_call_counterexample :
    String.join (CodegenObjc.visitExpr exCallFooBarNoArgs
        (CodegenObjc.initState "    " false)).2.result = "[self foo_bar_]"
      ∧ ("[self foo_bar_]" : String) ≠ "[self]" :=
  ⟨by decide, by decide⟩

/-- C4: (amended) a method-style call with zero positional arguments is
emitted as `[receiver name]` with the whole unsplit name and no colon added
by the emitter, regardless of how many parts the name splits into; the
no-colon form is selected by the argument count, not the part count (see the
counterexample: a one-part name with one argument gets a colon). -/
theorem C4_no_colon_zero_args (recv : Expr) (attr : String) (aim cim : Option Bool)
    (s : CodegenObjc.GenState) (hnl : s.new_lines = 0) :
    (CodegenObjc.visitExpr (.Call (.Attribute recv attr aim) .nil cim) s).2.result
      = s.result ++ ["["] ++ CodegenObjc.exprFrags recv recv.isMethodSlot
        ++ [" " ++ attr] ++ ["]"] := by
  have h1 := (CodegenObjc.visitExprWithSlot_result
    (.Call (.Attribute recv attr aim) .nil cim) cim s hnl).1
  simpa [CodegenObjc.visitExpr, Expr.isMethodSlot, CodegenObjc.exprFrags] using h1

/-- C4 witness: `self.foo()` is emitted as `[self foo]`, with no colon. -/
theorem C4_no_colon_zero_args_witness :
    (CodegenObjc.visitExpr exCallFooNoArgs (CodegenObjc.initState "    " false)).2.result
        = ["[", "self", " foo", "]"]
      ∧ String.join (CodegenObjc.visitExpr exCallFooNoArgs
          (CodegenObjc.initState "    " false)).2.result = "[self foo]"
      ∧ strContains "[self foo]" ":" = false := by
  refine ⟨?_, by decide, by decide⟩
  have h := C4_no_colon_zero_args (.Name "self" none) "foo" none none
    (CodegenObjc.initState "    " false) (by decide)
  exact h.trans (by decide)

/-- C4 counterexample: `self.foo(x)` — a method-style call whose name yields
one part — is emitted as `[self foo:x]`, with a colon, because the code
selects the no-colon form by `len(node.args) == 0`, not by the part count of
the name as the claim states. -/
theorem C4_one_part_with_arg_counterexample :
    String.join (CodegenObjc.visitExpr exCallFooOneArg
        (CodegenObjc.initState "    " false)).2.result = "[self foo:x]"
      ∧ strContains "[self foo:x]" ":" = true
      ∧ ("[self foo:x]" : String) ≠ "[self foo]" :=
  ⟨by decide, by decide, by decide⟩

end BoxedMisc

namespace BoxedMisc

/-- C2: the claim (split, drop empties, capitalize after the first,
re-attach exactly the original number of leading/trailing delimiters, so a
name with no leading delimiter gains none) describes the code's intent — the
source comments `We want to keep underscore prefixes and suffixes` — but the
two index loops lack a `break`: `prefix_count` ends at the index of the LAST
nonempty part.  A class method declared `foo_bar(self, x)` (no leading
underscore) is emitted with keyword name `_fooBar`, gaining a leading
underscore. -/
theorem C2_method_name_gains_underscore :
    (CodegenObjc.to_source exModuleFooBarMethod "    " false).1
        = "@implementation A\n\n- (id)_fooBarX:(id)x \x7b\n\x7d\n\n@end"
      ∧ CodegenObjc.signature_items_of "foo_bar" = ["_foo", "Bar"]
      ∧ CodegenObjc.prefixCountLoop (pySplit "foo_bar" '_') = 1 :=
  ⟨by decide, by decide, by decide⟩

/-- C3: for the class method `get_value(self)` with zero extra parameters the
zero-argument branch of `visit_FunctionDef` writes the raw `node_name`
(`'get_value'`), discarding the computed `signature_items` in which the
leading `get` had been dropped; the emitted selector is `get_value`, not
`value` as the claim (and the spec's stated intent) says. -/
theorem C3_leading_get_kept :
    (CodegenObjc.to_source exModuleGetValue "    " false).1
        = "@implementation A\n\n- (id)get_value \x7b\n\x7d\n\n@end"
      ∧ (CodegenObjc.methodHeader "get_value" (.cons (.Name "self" none) .nil)
          (CodegenObjc.initState "    " false)).1 = "get_value" :=
  ⟨by decide, by decide⟩

/-- C5 counterexample: for `class C: zebra = 1; apple = 2` the text returned
by the heuristic `to_source` is the implementation block alone and contains
no `@interface` block at all — the interface blocks are `print`ed to
standard output during the call, not placed in the returned text. -/
theorem C5_interface_not_in_returned_text :
    (CodegenObjc.to_source exModuleZebraApple "    " false).1 = "@implementation C\n\n@end"
      ∧ strContains (CodegenObjc.to_source exModuleZebraApple "    " false).1 "@interface"
          = false :=
  ⟨by decide, by decide⟩

/-- C5: (amended) the synthesized interface blocks are printed to standard
output while `to_source` runs (so they precede the returned implementation
text when a caller prints it) rather than appearing in the returned text;
within a block the attribute names are sorted: assigned in order `zebra`,
`apple`, they are listed `apple` before `zebra`, each with its inferred
type. -/
theorem C5_interface_printed_sorted :
    (CodegenObjc.to_source exModuleZebraApple "    " false).2
      = ["@interface C \x7b", "    int apple;", "    int zebra;", "\x7d", "\n@end\n\n"] := by
  decide

/-- C6: (amended) a node whose kind has no `visit_` handler and no children
is silently skipped by the `generic_visit` fallback of the stdlib
`ast.NodeVisitor` base class — the state is returned unchanged and generation
continues — in both backends; it does not abort. -/
theorem C6_generic_visit_childless_skip :
    (∀ (l : Nat) (s : CodegenObjc.GenState),
        CodegenObjc.visitStmt (.Unknown l .nil) s = (.Unknown l .nil, s))
      ∧ (∀ (l : Nat) (s : Codegen.GenState),
        Codegen.visitStmt (.Unknown l .nil) s = s) := by
  constructor
  · intro l s
    simp [CodegenObjc.visitStmt, CodegenObjc.visitStmtList]
  · intro l s
    simp [Codegen.visitStmt, Codegen.visitStmtList]

/-- C6 counterexample: generation over a module containing a childless
unhandled node completes normally and produces exactly the text of the same
module without that node — a silent skip, not a reported fatal abort. -/
theorem C6_childless_unknown_counterexample :
    CodegenObjc.to_source exModuleWithUnknown "    " false
        = CodegenObjc.to_source exModuleWithoutUnknown "    " false
      ∧ (CodegenObjc.to_source exModuleWithUnknown "    " false).1 = "a = 1;\nb = 2;" :=
  ⟨by decide, by decide⟩

/-- C7 counterexample: for `class C: x = 1` the registry records type `int`
for `x`; adding a later class-level assignment `x = 's'` changes the
recorded type to `NSString *` — the later assignment overwrites the earlier
inference, so the first inference does not win. -/
theorem C7_overwrite_counterexample :
    (CodegenObjc.to_source exModuleTypeOnce "    " false).2
        = ["@interface C \x7b", "    int x;", "\x7d", "\n@end\n\n"]
      ∧ (CodegenObjc.to_source exModuleTypeTwice "    " false).2
        = ["@interface C \x7b", "    NSString * x;", "\x7d", "\n@end\n\n"] :=
  ⟨by decide, by decide⟩

/-- C7: (amended) the class-level type inference of `visit_Assign`
unconditionally assigns `currentClassAttributeTypes[target_id]`, so the LAST
recognized inference wins: a later assignment with a numeric literal records
`int` and one with a string literal records `NSString *` regardless of any
earlier entry; only a value of unrecognized shape (for example a plain name
other than `True`/`False`) leaves the mapping unchanged. -/
theorem C7_last_inference_wins :
    (∀ (s : CodegenObjc.GenState) (tid : String) (n : Int),
        dictGet tid
          (CodegenObjc.inferMemberType tid (.Num n none) s).currentClassAttributeTypes
          = some "int")
      ∧ (∀ (s : CodegenObjc.GenState) (tid str : String),
        dictGet tid
          (CodegenObjc.inferMemberType tid (.Str str none) s).currentClassAttributeTypes
          = some "NSString *")
      ∧ (∀ (s : CodegenObjc.GenState) (tid id : String), id ≠ "True" → id ≠ "False" →
        (CodegenObjc.inferMemberType tid (.Name id none) s).currentClassAttributeTypes
          = s.currentClassAttributeTypes) := by
  refine ⟨fun s tid n => ?_, fun s tid str => ?_, fun s tid id h1 h2 => ?_⟩
  · simp [CodegenObjc.inferMemberType, Expr.hasFunc, Expr.hasElts, Expr.hasN,
      dictGet_dictSet]
  · simp [CodegenObjc.inferMemberType, Expr.hasFunc, Expr.hasElts, Expr.hasN,
      Expr.hasS, dictGet_dictSet]
  · simp [CodegenObjc.inferMemberType, Expr.hasFunc, Expr.hasElts, Expr.hasN,
      Expr.hasS, h1, h2]

/-- C7 witness: an unrecognized value shape (`y`) leaves the type mapping of
the fresh generator state unchanged (empty). -/
theorem C7_last_inference_wins_witness :
    (CodegenObjc.inferMemberType "x" (.Name "y" none)
        (CodegenObjc.initState "    " false)).currentClassAttributeTypes = [] := by
  have h := C7_last_inference_wins.2.2 (CodegenObjc.initState "    " false) "x" "y"
    (by decide) (by decide)
  exact h.trans (by decide)

end BoxedMisc

namespace BoxedMisc

/-- C8: `newline(extra)` with no node raises the pending count to
`max(current, 1 + extra)` and changes nothing else, in both backends; and
from a state with no pending newline and existing output, requests for 1,
then 2, then 1 newlines (`extra` 0, 1, 0) followed by a write flush exactly
two newline characters (two blank lines, never the sum four) before the
indentation and the written text. -/
theorem C8_blank_line_coalescing :
    (∀ (extra : Nat) (s : CodegenObjc.GenState),
        CodegenObjc.newline none extra s = { s with new_lines := max s.new_lines (1 + extra) })
      ∧ (∀ (x : String) (s : CodegenObjc.GenState), s.new_lines = 0 → s.resNew = false →
        (CodegenObjc.write x (CodegenObjc.newline none 0 (CodegenObjc.newline none 1
            (CodegenObjc.newline none 0 s)))).result
          = s.result ++ [strRepeat "\n" 2, strRepeat s.indent_with s.indentation, x])
      ∧ (∀ (extra : Nat) (s : Codegen.GenState),
        Codegen.newline none extra s = { s with new_lines := max s.new_lines (1 + extra) })
      ∧ (∀ (x : String) (s : Codegen.GenState), s.new_lines = 0 → s.resNew = false →
        (Codegen.write x (Codegen.newline none 0 (Codegen.newline none 1
            (Codegen.newline none 0 s)))).result
          = s.result ++ [strRepeat "\n" 2, strRepeat s.indent_with s.indentation, x]) := by
  refine ⟨fun extra s => ?_, fun x s h1 h2 => ?_, fun extra s => ?_, fun x s h1 h2 => ?_⟩
  · simp [CodegenObjc.newline]
  · simp [CodegenObjc.newline, CodegenObjc.write, h1, h2]
  · simp [Codegen.newline]
  · simp [Codegen.newline, Codegen.write, h1, h2]

/-- C8 witness: after writing `"a"` into a fresh buffer, the 1-2-1 request
sequence followed by `write "x"` flushes exactly two newline characters. -/
theorem C8_blank_line_coalescing_witness :
    (CodegenObjc.write "x" (CodegenObjc.newline none 0 (CodegenObjc.newline none 1
        (CodegenObjc.newline none 0
          (CodegenObjc.write "a" (CodegenObjc.initState "" false)))))).result
      = ["a", "\n\n", "", "x"] := by
  have h := C8_blank_line_coalescing.2.1 "x"
    (CodegenObjc.write "a" (CodegenObjc.initState "" false)) (by decide) (by decide)
  exact h.trans (by decide)

/-- C9: (amended) for a compound statement with an empty body the mirror
emitter's `body` emits exactly one `pass` placeholder statement, but the
heuristic emitter's `body` visits a synthesized `Pass()` whose handler
writes nothing, so the heuristic block is empty between the braces: only the
newline, the indentation and the closing brace are appended. -/
theorem C9_empty_body_policy :
    (∀ (s : Codegen.GenState), s.new_lines = 0 → s.resNew = false →
        (Codegen.body .nil s).result
          = s.result ++ [strRepeat "\n" 1, strRepeat s.indent_with (s.indentation + 1), "pass"])
      ∧ (∀ (s : CodegenObjc.GenState), s.new_lines = 0 → s.resNew = false →
        (CodegenObjc.body .nil s).2.result
          = s.result ++ [strRepeat "\n" 1, strRepeat s.indent_with s.indentation, "\x7d"]) := by
  constructor
  · intro s h1 h2
    simp [Codegen.body, Codegen.visitStmtList, Codegen.visit_Pass, Codegen.newline,
      Codegen.write, h1, h2]
  · intro s h1 h2
    simp [CodegenObjc.body, CodegenObjc.visitStmtList, CodegenObjc.visit_Pass,
      CodegenObjc.newline, CodegenObjc.write, h1, h2]

/-- C9 witness: concrete empty bodies in both backends, from a buffer that
already holds the block header. -/
theorem C9_empty_body_policy_witness :
    (Codegen.body .nil (Codegen.write "def f():" (Codegen.initState "    " false))).result
        = ["def f():", "\n", "    ", "pass"]
      ∧ (CodegenObjc.body .nil (CodegenObjc.write "if (x) \x7b"
          (CodegenObjc.initState "    " false))).2.result
        = ["if (x) \x7b", "\n", "", "\x7d"] := by
  constructor
  · have h := C9_empty_body_policy.1
      (Codegen.write "def f():" (Codegen.initState "    " false)) (by decide) (by decide)
    exact h.trans (by decide)
  · have h := C9_empty_body_policy.2
      (CodegenObjc.write "if (x) \x7b" (CodegenObjc.initState "    " false)) (by decide) (by decide)
    exact h.trans (by decide)

/-- C9 counterexample: the heuristic emitter's block for an empty body is
`if (x) {` + newline + `}` — it contains no placeholder statement at all
(in particular no `pass` and nothing between the braces), contradicting
"exactly one no-op placeholder statement in both backends". -/
theorem C9_objc_empty_body_counterexample :
    String.join (CodegenObjc.body .nil (CodegenObjc.write "if (x) \x7b"
        (CodegenObjc.initState "    " false))).2.result = "if (x) \x7b\n\x7d"
      ∧ strContains "if (x) \x7b\n\x7d" "pass" = false :=
  ⟨by decide, by decide⟩

end BoxedMisc

namespace BoxedMisc

/-- C10: (amended) `to_source` mutates the input tree: `visit_Call` persists
the derived is-method-style classification onto the callee node
(`node.func.is_method = hasattr(node.func, 'value')`) for every call, and
the class branch of `visit_FunctionDef` overwrites the declaration's name
with the computed selector name (`node.name = node_name`); here `__init__`
becomes `init` on the node itself. -/
theorem C10_mutation_persists :
    (∀ (f : Expr) (args : ExprList) (im : Option Bool) (s : CodegenObjc.GenState),
        ((CodegenObjc.visitExpr (.Call f args im) s).1).funcOf.isMethodSlot
          = some f.hasValue)
      ∧ (CodegenObjc.visit_FunctionDef 2 "__init__"
          (.cons (.Name "self" none) (.cons (.Name "x" none) .nil))
          (.cons (.Pass 3) .nil)
          { CodegenObjc.initState "    " false with inClassDef := true }).1.nameOf
        = "init" := by
  constructor
  · intro f args im s
    cases f with
    | Attribute recv attr fim =>
        rcases hv : CodegenObjc.visitExprWithSlot recv recv.isMethodSlot
            (CodegenObjc.write "[" s) with ⟨recv', s2⟩
        cases args with
        | nil =>
            simp [CodegenObjc.visitExpr, Expr.isMethodSlot, CodegenObjc.visitExprWithSlot,
              hv, Expr.funcOf, Expr.hasValue]
        | cons a tl =>
            rcases hz : CodegenObjc.visitZipArgs (pySplit attr '_') (.cons a tl) s2
              with ⟨args', s3⟩
            simp [CodegenObjc.visitExpr, Expr.isMethodSlot, CodegenObjc.visitExprWithSlot,
              hv, hz, Expr.funcOf, Expr.hasValue]
    | Name id fim =>
        rcases hc : CodegenObjc.visitCommaArgs args false
            (CodegenObjc.write "(" (CodegenObjc.write id s)) with ⟨args', s3⟩
        simp [CodegenObjc.visitExpr, Expr.isMethodSlot, CodegenObjc.visitExprWithSlot,
          hc, Expr.funcOf, Expr.hasValue]
    | Num n fim =>
        rcases hc : CodegenObjc.visitCommaArgs args false
            (CodegenObjc.write "(" (CodegenObjc.write (toString n) s)) with ⟨args', s3⟩
        simp [CodegenObjc.visitExpr, Expr.isMethodSlot, CodegenObjc.visitExprWithSlot,
          hc, Expr.funcOf, Expr.hasValue]
    | Str str fim =>
        rcases hc : CodegenObjc.visitCommaArgs args false
            (CodegenObjc.write "(" (CodegenObjc.write
              ("@\"" ++ pyReplace str "\n" "\\n" ++ "\"") s)) with ⟨args', s3⟩
        simp [CodegenObjc.visitExpr, Expr.isMethodSlot, CodegenObjc.visitExprWithSlot,
          hc, Expr.funcOf, Expr.hasValue]
    | ListLit elts fim =>
        rcases he : CodegenObjc.visitEnumElts elts 0 (CodegenObjc.write "[" s)
          with ⟨elts', s2⟩
        rcases hc : CodegenObjc.visitCommaArgs args false
            (CodegenObjc.write "(" (CodegenObjc.write "]" s2)) with ⟨args', s3⟩
        simp [CodegenObjc.visitExpr, Expr.isMethodSlot, CodegenObjc.visitExprWithSlot,
          he, hc, Expr.funcOf, Expr.hasValue]
    | Call f2 args2 fim =>
        rcases hv : CodegenObjc.visitExprWithSlot (.Call f2 args2 fim) (some false) s
          with ⟨f', s1⟩
        have hslot := CodegenObjc.visitExprWithSlot_slot (.Call f2 args2 fim) (some false) s
        rw [hv] at hslot
        dsimp only at hslot
        rcases hc : CodegenObjc.visitCommaArgs args false (CodegenObjc.write "(" s1)
          with ⟨args', s3⟩
        simp [CodegenObjc.visitExpr, Expr.isMethodSlot, CodegenObjc.visitExprWithSlot,
          hv, hc, Expr.funcOf, Expr.hasValue]
        exact hslot
  · decide

/-- C10 counterexample: visiting the concrete call `self.foo()` returns a
tree different from the input — the callee's `is_method` slot, absent on the
input node, is `True` on the output node.  `to_source` does modify the input
tree. -/
theorem C10_tree_mutated_counterexample :
    (CodegenObjc.visitExpr exCallFooNoArgs (CodegenObjc.initState "    " false)).1
        ≠ exCallFooNoArgs
      ∧ (CodegenObjc.visitExpr exCallFooNoArgs
          (CodegenObjc.initState "    " false)).1.funcOf.isMethodSlot = some true
      ∧ exCallFooNoArgs.funcOf.isMethodSlot = none :=
  ⟨by decide, by decide, by decide⟩

end BoxedMisc

namespace BoxedMisc

namespace CodegenObjc

theorem visitExprWithSlot_call_eq (f : Expr) (args : ExprList) (im0 im : Option Bool)
    (s : GenState) :
    visitExprWithSlot (.Call f args im0) im s = visit_Call f args im s := by
  cases f <;> rfl

theorem visitStmt_assign_eq (l : Nat) (targets : ExprList) (value : Expr) (s : GenState) :
    visitStmt (.Assign l targets value) s = visit_Assign l targets value s := rfl

theorem visitStmt_functionDef_eq (l : Nat) (name : String) (args : ExprList)
    (bodyStmts : StmtList) (s : GenState) :
    visitStmt (.FunctionDef l name args bodyStmts) s
      = visit_FunctionDef l name args bodyStmts s := rfl

theorem visitStmt_classDef_eq (l : Nat) (name : String) (bases : ExprList)
    (bodyStmts : StmtList) (s : GenState) :
    visitStmt (.ClassDef l name bases bodyStmts) s
      = visit_ClassDef l name bases bodyStmts s := rfl

end CodegenObjc

end BoxedMisc
